import Mathlib

/-!
Verification of the statustext-parser repository (UWARG/statustext-parser-2025).

Shallow embedding conventions:
* Python floats are modelled as rationals (exact arithmetic); every numeric
  computation of the source is translated verbatim over the rationals.
* The modules.common collaborators (protocol decoders, PositionGlobal.create,
  the local/global frame conversion) are not part of this repository's src
  tree; the definitions below that stand in for them carry a doc comment
  starting with the words Modelled from the spec.
* The two receive loops (modules/recieve_statustext.py and the historical
  modules/recieve_statustrxt.py) are modelled as step functions folded over
  the list of frames delivered by the MAVLink connection; KML-save outcomes
  are supplied by an oracle list of booleans consumed one per emitted batch.
-/

/- The Batteries library seals the rational-number operations as irreducible,
which blocks evaluation of concrete examples; restore the default
reducibility for this file so that concrete runs of the embedded program
reduce. -/
attribute [local semireducible] Rat.add Rat.mul Rat.inv Rat.sub Rat.ofScientific

/-- Geodetic position: latitude, longitude (degrees), altitude (meters). -/
structure GeodeticPosition where
  latitude : ℚ
  longitude : ℚ
  altitude : ℚ
deriving DecidableEq

/-- Local tangent-plane position: north, east, down (meters), relative to an
origin.  merge_kml.py stores these as the list fields hotspot[0], hotspot[1],
hotspot[2]. -/
structure LocalPosition where
  north : ℚ
  east : ℚ
  down : ℚ
deriving DecidableEq

/-! ## Clustering engine (merge_kml.py, main, lines 176-197)

The code iterates over the hotspot list with index i; a point whose index is
not yet in merged_indices seeds a new cluster, then the whole list is scanned
again (index j) and every unmerged point other than the seed whose squared
planar distance to the seed is strictly below threshold**2 is appended to the
cluster and its index appended to merged_indices.  Finally the arithmetic
mean of north, east and down over the cluster members is emitted. -/

/-- Squared planar (north/east) distance, exactly the expression
(hotspot_j[0] - hotspot_i[0])**2 + (hotspot_j[1] - hotspot_i[1])**2. -/
def planarDist2 (p q : LocalPosition) : ℚ :=
  (q.north - p.north) ^ 2 + (q.east - p.east) ^ 2

/-- Inner j-scan of the clustering loop: collects (in scan order) all points
with index j such that i ≠ j, j is unmerged, and threshold**2 > squared
planar distance to the seed; returns the collected members and the grown
merged_indices list. -/
def innerScan (threshold : ℚ) (i : Nat) (seed : LocalPosition) :
    List (Nat × LocalPosition) → List Nat → List LocalPosition × List Nat
  | [], merged => ([], merged)
  | (j, hj) :: rest, merged =>
    if i ≠ j ∧ j ∉ merged ∧ planarDist2 seed hj < threshold ^ 2 then
      let r := innerScan threshold i seed rest (merged ++ [j])
      (hj :: r.1, r.2)
    else
      innerScan threshold i seed rest merged

/-- Outer i-loop of the clustering step, over the enumerated hotspot list;
emits the member list of each cluster in formation order (seed first). -/
def outerLoop (threshold : ℚ) (enumerated : List (Nat × LocalPosition)) :
    List (Nat × LocalPosition) → List Nat → List (List LocalPosition)
  | [], _ => []
  | (i, hi) :: rest, merged =>
    if i ∈ merged then outerLoop threshold enumerated rest merged
    else
      let r := innerScan threshold i hi enumerated merged
      (hi :: r.1) :: outerLoop threshold enumerated rest r.2

/-- Member lists of the clusters produced by merge_kml's clustering step, in
the order the clusters are formed. -/
def clusterGroups (hotspots : List LocalPosition) (threshold : ℚ) :
    List (List LocalPosition) :=
  outerLoop threshold hotspots.enum hotspots.enum []

/-- Arithmetic mean of the members of one cluster (cluster_lat, cluster_long,
cluster_alt in the source, which are really north/east/down). -/
def centroid (cluster : List LocalPosition) : LocalPosition :=
  { north := (cluster.map LocalPosition.north).sum / (cluster.length : ℚ)
    east := (cluster.map LocalPosition.east).sum / (cluster.length : ℚ)
    down := (cluster.map LocalPosition.down).sum / (cluster.length : ℚ) }

/-! ## Frame conversion and position creation (modules.common collaborators) -/

/-- Modelled from the spec: PositionGlobal.create of modules.common (not under
src/); section 3 of the spec declares a GeodeticPosition valid only if
latitude lies in [-90, 90] and longitude in [-180, 180]. -/
def positionGlobalCreateOk (lat lng : ℚ) : Bool :=
  (-90 ≤ lat) && (lat ≤ 90) && (-180 ≤ lng) && (lng ≤ 180)

/-- Modelled from the spec: local_global_conversion.position_local_from_position_global
of modules.common (not under src/); section 4.3 of the spec requires only that
to_local and to_geodetic be a consistent inverse pair anchored at the origin,
so the conversion is modelled as the exact tangent-plane offset (the
degree-to-meter scale factor is irrelevant to every claim and is taken as 1). -/
def toLocal (origin p : GeodeticPosition) : LocalPosition :=
  { north := p.latitude - origin.latitude
    east := p.longitude - origin.longitude
    down := origin.altitude - p.altitude }

/-- Modelled from the spec: local_global_conversion.position_global_from_position_local
of modules.common (not under src/); exact inverse of toLocal. -/
def toGeodetic (origin : GeodeticPosition) (l : LocalPosition) : GeodeticPosition :=
  { latitude := origin.latitude + l.north
    longitude := origin.longitude + l.east
    altitude := origin.altitude - l.down }

/-! ## Python semantics helpers -/

/-- Python value restricted to the two types compared by the broken check in
validate_placemark: an int (from len) and a str. -/
inductive PyVal
  | intVal (n : Nat)
  | strVal (s : String)
deriving DecidableEq

/-- Python equality on PyVal: values of different types are never equal, so
an int always compares unequal to a str. -/
def pyEq : PyVal → PyVal → Bool
  | PyVal.intVal a, PyVal.intVal b => a == b
  | PyVal.strVal a, PyVal.strVal b => a == b
  | _, _ => false

/-- Python str.split with a one-character separator, on the underlying
character list; the empty string yields one empty field, like Python. -/
def splitOnChar (sep : Char) : List Char → List (List Char)
  | [] => [[]]
  | c :: cs =>
    if c = sep then [] :: splitOnChar sep cs
    else
      match splitOnChar sep cs with
      | [] => [[c]]
      | g :: gs => (c :: g) :: gs

/-- The expression text.split of the source, with separator a comma. -/
def pySplitComma (s : String) : List String :=
  (splitOnChar ',' s.data).map (fun cs => String.mk cs)

/-- Digit-string value; fails on the empty list or any non-digit. -/
def digitsValAux : List Char → Nat → Option Nat
  | [], acc => some acc
  | c :: cs, acc =>
    if c.isDigit then digitsValAux cs (acc * 10 + (c.toNat - 48)) else none

/-- Digit-string value; the empty list is rejected. -/
def digitsVal : List Char → Option Nat
  | [] => none
  | c :: cs => digitsValAux (c :: cs) 0

/-- Python float() on a character list, for the decimal forms the KML files
carry: optional minus sign, an integer part, optionally a dot and a fraction
part; the empty string and any other malformed text raise ValueError,
modelled as none. -/
def pyFloatChars (cs : List Char) : Option ℚ :=
  let signAndRest : Bool × List Char :=
    match cs with
    | '-' :: rest => (true, rest)
    | _ => (false, cs)
  let body := signAndRest.2
  match body.span (fun c => c != '.') with
  | (intPart, []) =>
    (digitsVal intPart).map (fun n => if signAndRest.1 then -(n : ℚ) else (n : ℚ))
  | (intPart, _ :: fracPart) =>
    match digitsVal intPart, digitsVal fracPart with
    | some n, some f =>
      let v : ℚ := (n : ℚ) + (f : ℚ) / ((10 : ℚ) ^ fracPart.length)
      some (if signAndRest.1 then -v else v)
    | _, _ => none

/-- Python float() on a string. -/
def pyFloat (s : String) : Option ℚ :=
  pyFloatChars s.data

/-- Python list-startswith helper for substring containment. -/
def listStartsWith : List Char → List Char → Bool
  | _, [] => true
  | [], _ :: _ => false
  | c :: cs, d :: ds => c == d && listStartsWith cs ds

/-- Python substring containment (the in operator on str), needle first. -/
def containsSub (needle : List Char) : List Char → Bool
  | [] => listStartsWith [] needle
  | c :: rest => listStartsWith (c :: rest) needle || containsSub needle rest

/-! ## merge_kml.py: placemark validation and the main pipeline -/

/-- A KML Placemark as read through pykml/objectify by merge_kml.py: an
optional name text, presence flags for the Point and coordinates elements,
and the raw coordinates text. -/
structure Placemark where
  name : Option String
  hasPoint : Bool
  hasCoordinates : Bool
  coordinatesText : String
deriving DecidableEq

/-- Outcome of running (part of) merge_kml.main: a produced value, the
logged-and-return-minus-one path, or an uncaught Python exception. -/
inductive MainOutcome (α : Type)
  | ok (val : α)
  | errorReturn
  | uncaught
deriving DecidableEq

/-- The validate_placemark function of merge_kml.py (lines 20-49).  The
coordinate-emptiness check of the source compares len(text), an int, against
the empty string, which in Python is always False. -/
def validate_placemark (place : Placemark) : Bool :=
  match place.name with
  | none => false
  | some nameText =>
    if nameText == "" then false
    else if !place.hasPoint then false
    else if !place.hasCoordinates then false
    else if pyEq (PyVal.intVal place.coordinatesText.length) (PyVal.strVal "") then false
    else true

/-- The coordinate parse of merge_kml.main (lines 118-121): split the text on
commas and apply float() to fields 0, 1, 2 as latitude, longitude, altitude;
a missing field (IndexError) or unparsable field (ValueError) is an uncaught
exception, modelled as none. -/
def parseCoord (text : String) : Option (ℚ × ℚ × ℚ) :=
  let fields := pySplitComma text
  match fields.get? 0, fields.get? 1, fields.get? 2 with
  | some f0, some f1, some f2 =>
    match pyFloat f0, pyFloat f1, pyFloat f2 with
    | some lat, some lng, some alt => some (lat, lng, alt)
    | _, _, _ => none
  | _, _, _ => none

/-- The source-averaging update of merge_kml.main (lines 137-143): the first
source point is stored as is, every later one is merged by a running average
of each component. -/
def updateSource (source : Option (ℚ × ℚ × ℚ)) (lat lng alt : ℚ) : ℚ × ℚ × ℚ :=
  match source with
  | none => (lat, lng, alt)
  | some (a, b, c) => ((a + lat) / 2, (b + lng) / 2, (c + alt) / 2)

/-- One iteration of the preprocessing loop of merge_kml.main (lines
110-173): validate, parse coordinates, set the home position from the
placemark with index 0, then dispatch on whether the name contains Source or
Hotspot (anything else is an error). -/
def processPlace (idx : Nat) (home : Option GeodeticPosition)
    (source : Option (ℚ × ℚ × ℚ)) (hotspots : List LocalPosition)
    (place : Placemark) :
    MainOutcome (Option GeodeticPosition × Option (ℚ × ℚ × ℚ) × List LocalPosition) :=
  if !(validate_placemark place) then MainOutcome.errorReturn
  else
    match parseCoord place.coordinatesText with
    | none => MainOutcome.uncaught
    | some (lat, lng, alt) =>
      let homeStep : MainOutcome (Option GeodeticPosition) :=
        if idx = 0 then
          if positionGlobalCreateOk lat lng then
            MainOutcome.ok (some { latitude := lat, longitude := lng, altitude := alt })
          else MainOutcome.errorReturn
        else MainOutcome.ok home
      match homeStep with
      | MainOutcome.errorReturn => MainOutcome.errorReturn
      | MainOutcome.uncaught => MainOutcome.uncaught
      | MainOutcome.ok home2 =>
        match place.name with
        | none => MainOutcome.errorReturn
        | some nameText =>
          if containsSub "Source".data nameText.data then
            MainOutcome.ok (home2, some (updateSource source lat lng alt), hotspots)
          else if containsSub "Hotspot".data nameText.data then
            if positionGlobalCreateOk lat lng then
              match home2 with
              | some h =>
                MainOutcome.ok (home2, source,
                  hotspots ++ [toLocal h { latitude := lat, longitude := lng, altitude := alt }])
              | none => MainOutcome.errorReturn
            else MainOutcome.errorReturn
          else MainOutcome.errorReturn

/-- The whole preprocessing loop of merge_kml.main, threading the index, the
home position, the running source average and the hotspot list. -/
def preprocessAll :
    List Placemark → Nat → Option GeodeticPosition → Option (ℚ × ℚ × ℚ) →
    List LocalPosition →
    MainOutcome (Option GeodeticPosition × Option (ℚ × ℚ × ℚ) × List LocalPosition)
  | [], _, home, source, hotspots => MainOutcome.ok (home, source, hotspots)
  | place :: rest, idx, home, source, hotspots =>
    match processPlace idx home source hotspots place with
    | MainOutcome.ok (h, s, hs) => preprocessAll rest (idx + 1) h s hs
    | MainOutcome.errorReturn => MainOutcome.errorReturn
    | MainOutcome.uncaught => MainOutcome.uncaught

/-- Hotspot label used by both output writers: the f-string Hotspot i+1. -/
def hotspotName (i : Nat) : String :=
  "Hotspot " ++ toString (i + 1)

/-- The cluster-to-global conversion loop of merge_kml.main (lines 199-222);
the conversion needs the home position, which is only absent when there are
no clusters at all. -/
def convertCentroids (home : Option GeodeticPosition) (cents : List LocalPosition) :
    Option (List GeodeticPosition) :=
  match home, cents with
  | _, [] => some []
  | none, _ :: _ => none
  | some h, l => some (l.map (toGeodetic h))

/-- The KML document assembly of merge_kml.main (lines 228-241): the Source
placemark is appended first, unconditionally indexing source[0]; on an empty
source list this raises an uncaught IndexError.  Then one placemark per
cluster centroid, labeled Hotspot 1, Hotspot 2, ... in cluster order. -/
def buildOutput (source : Option (ℚ × ℚ × ℚ)) (globalCents : List GeodeticPosition) :
    MainOutcome (List (String × GeodeticPosition)) :=
  match source with
  | none => MainOutcome.uncaught
  | some (a, b, c) =>
    MainOutcome.ok (("Source", { latitude := a, longitude := b, altitude := c }) ::
      globalCents.enum.map (fun x => (hotspotName x.1, x.2)))

/-- The main function of merge_kml.py on the already-merged placemark list
(the source appends the children of file_2's document to file_1's before the
loop, so the input is the concatenated list): threshold guard, preprocessing,
clustering, conversion back to geodetic, and output assembly. -/
def mergeMain (threshold : ℚ) (places : List Placemark) :
    MainOutcome (List (String × GeodeticPosition)) :=
  if ¬ threshold > 0 then MainOutcome.errorReturn
  else
    match preprocessAll places 0 none none [] with
    | MainOutcome.errorReturn => MainOutcome.errorReturn
    | MainOutcome.uncaught => MainOutcome.uncaught
    | MainOutcome.ok (home, source, hotspots) =>
      let cents := (clusterGroups hotspots threshold).map centroid
      match convertCentroids home cents with
      | none => MainOutcome.errorReturn
      | some gcs => buildOutput source gcs

/-! ## Coordinate writers of the two KML producers -/

/-- The coordinate text written by append_points.append_hotspot (lines
41-44): the f-string longitude,latitude,0 — longitude first. -/
def appendHotspotCoordText (latText longText : String) : String :=
  longText ++ "," ++ latText ++ "," ++ "0"

/-- The coordinate text written by merge_kml.main for its own output (lines
235-241): the f-string latitude,longitude,altitude — latitude first. -/
def mergeKmlCoordText (latText longText altText : String) : String :=
  latText ++ "," ++ longText ++ "," ++ altText

/-! ## Receive loops (recieve_statustext.py and recieve_statustrxt.py)

Both loops read STATUSTEXT frames from the MAVLink connection.  A frame is
classified by what the two modules.common decoders do with its payload.
Modelled from the spec (section 4.1): the metadata and position-item
encodings are distinct tagged payloads, so decode_metadata succeeds exactly
on metadata frames and decode_bytes_to_position_global exactly on item
frames; system chatter raises inside the decoder (the bare except of the
source) or returns success = False, both of which the loops skip — such
frames are collapsed into the garbage constructor.  The createOk flag of an
item frame records whether the (external)
NamedPositionGlobalRelativeAltitude.create call of recieve_statustext.py
succeeds for it. -/

/-- Reporting source of a decoded frame (worker_enum.WorkerEnum). -/
inductive WorkerEnum
  | COMMUNICATIONS_WORKER
  | otherWorker (id : Nat)
deriving DecidableEq

/-- One STATUSTEXT read outcome. -/
inductive MavFrame
  | noMsg
  | badData
  | garbage
  | metadata (worker : WorkerEnum) (count : Nat)
  | item (worker : WorkerEnum) (pos : GeodeticPosition) (createOk : Bool)
deriving DecidableEq

/-- Control position of recieve_statustext.main: waiting for a metadata
frame, or collecting the announced number of items. -/
inductive TextMode
  | waiting
  | collecting (expected : Nat) (received : Nat)
deriving DecidableEq

/-- State of recieve_statustext.main threaded through the frame stream:
mode, the positions list of the current batch, the oracle of KML-save
outcomes (one consumed per emitted batch; an exhausted oracle counts as a
successful save), every batch handed to the KML sink together with its
declared count, and the return value once main has returned. -/
structure TextState where
  mode : TextMode
  positions : List (String × GeodeticPosition)
  saves : List Bool
  emitted : List (Nat × List (String × GeodeticPosition))
  terminated : Option Int
deriving DecidableEq

/-- Batch completion of recieve_statustext.main (lines 134-144): the
positions are handed to named_positions_to_kml; a failed save prints and
returns -1, a successful one loops back to waiting with a fresh batch. -/
def textEmit (expected : Nat) (st : TextState) : TextState :=
  let st2 := { st with emitted := st.emitted ++ [(expected, st.positions)] }
  match st2.saves with
  | [] => { st2 with mode := TextMode.waiting, positions := [] }
  | ok :: rest =>
    if ok then { st2 with mode := TextMode.waiting, positions := [], saves := rest }
    else { st2 with mode := TextMode.waiting, positions := [], saves := rest,
                    terminated := some (-1) }

/-- One loop iteration of recieve_statustext.main on one frame.  In the
outer loop (waiting): no message and undecodable frames are skipped, a
BAD_DATA frame returns -1, a metadata frame from a non-communications worker
is skipped, a matching one enters the collection loop (count 0 completes the
batch immediately).  In the collection loop: no message, undecodable,
foreign-source and failed-create frames are skipped, BAD_DATA returns -1, a
matching item is appended under the name Hotspot received+1 and completes
the batch when the count is reached. -/
def textStep (st : TextState) (f : MavFrame) : TextState :=
  if st.terminated ≠ none then st
  else
    match st.mode with
    | TextMode.waiting =>
      match f with
      | MavFrame.noMsg => st
      | MavFrame.badData => { st with terminated := some (-1) }
      | MavFrame.garbage => st
      | MavFrame.item _ _ _ => st
      | MavFrame.metadata w n =>
        if w = WorkerEnum.COMMUNICATIONS_WORKER then
          if n = 0 then textEmit 0 { st with positions := [] }
          else { st with mode := TextMode.collecting n 0, positions := [] }
        else st
    | TextMode.collecting expected received =>
      match f with
      | MavFrame.noMsg => st
      | MavFrame.badData => { st with terminated := some (-1) }
      | MavFrame.garbage => st
      | MavFrame.metadata _ _ => st
      | MavFrame.item w p ok =>
        if w = WorkerEnum.COMMUNICATIONS_WORKER then
          if ok then
            let st2 := { st with positions := st.positions ++ [(hotspotName received, p)] }
            if received + 1 < expected then
              { st2 with mode := TextMode.collecting expected (received + 1) }
            else textEmit expected st2
          else st
        else st

/-- Initial state of recieve_statustext.main with a given save oracle. -/
def textInit (saves : List Bool) : TextState :=
  { mode := TextMode.waiting, positions := [], saves := saves,
    emitted := [], terminated := none }

/-- recieve_statustext.main run over a finite prefix of the frame stream. -/
def runText (frames : List MavFrame) (saves : List Bool) : TextState :=
  frames.foldl textStep (textInit saves)

/-- Positions of the valid matching item frames of a stream, in arrival
order: communications-worker items whose create step succeeds. -/
def validPositions (fs : List MavFrame) : List GeodeticPosition :=
  fs.filterMap (fun f =>
    match f with
    | MavFrame.item WorkerEnum.COMMUNICATIONS_WORKER p true => some p
    | _ => none)

/-- The named list recieve_statustext.main builds from a run of appended
positions, starting at a given received count. -/
def namedBatch : Nat → List GeodeticPosition → List (String × GeodeticPosition)
  | _, [] => []
  | r, p :: ps => (hotspotName r, p) :: namedBatch (r + 1) ps

/-- Frames the outer (metadata-waiting) loop of recieve_statustext.main
skips without effect: everything except BAD_DATA and a metadata frame of the
communications worker. -/
def OuterNoise (f : MavFrame) : Bool :=
  match f with
  | MavFrame.noMsg => true
  | MavFrame.badData => false
  | MavFrame.garbage => true
  | MavFrame.item _ _ _ => true
  | MavFrame.metadata w _ => w != WorkerEnum.COMMUNICATIONS_WORKER

/-- Frames allowed in the item region of a batch by claim C1: item frames of
any source, no message, and undecodable chatter — no transport-corrupt
frames and no further metadata frames. -/
def ItemStream (f : MavFrame) : Bool :=
  match f with
  | MavFrame.badData => false
  | MavFrame.metadata _ _ => false
  | _ => true

/-! ## The historical variant recieve_statustrxt.py

Same frame classification; differences faithful to its source: BAD_DATA is
printed and skipped (never fatal), positions is a module-level list that is
reset only when positions_to_kml succeeds, items are appended without a
create step and without names, and nothing ever returns. -/

/-- Control position of the recieve_statustrxt loop. -/
inductive TrxtMode
  | waiting
  | collecting (expected : Nat) (received : Nat)
deriving DecidableEq

/-- State of the recieve_statustrxt loop; emitted pairs each call of
positions_to_kml with the count declared by the batch's metadata frame and
the positions list passed.  An exhausted save oracle counts as a failed
save (positions kept). -/
structure TrxtState where
  mode : TrxtMode
  positions : List GeodeticPosition
  saves : List Bool
  emitted : List (Nat × List GeodeticPosition)
deriving DecidableEq

/-- Batch completion of recieve_statustrxt (lines 47-54): positions_to_kml
is called on the accumulated positions; only a successful save clears the
positions list. -/
def trxtFinishBatch (n : Nat) (st : TrxtState) : TrxtState :=
  let st2 := { st with mode := TrxtMode.waiting,
                       emitted := st.emitted ++ [(n, st.positions)] }
  match st2.saves with
  | [] => st2
  | s :: rest =>
    if s then { st2 with positions := [], saves := rest }
    else { st2 with saves := rest }

/-- One loop iteration of recieve_statustrxt on one frame. -/
def trxtStep (st : TrxtState) (f : MavFrame) : TrxtState :=
  match st.mode with
  | TrxtMode.waiting =>
    match f with
    | MavFrame.metadata w n =>
      if w = WorkerEnum.COMMUNICATIONS_WORKER then
        if 0 < n then { st with mode := TrxtMode.collecting n 0 }
        else trxtFinishBatch n st
      else st
    | _ => st
  | TrxtMode.collecting expected received =>
    match f with
    | MavFrame.item w p _ =>
      if w = WorkerEnum.COMMUNICATIONS_WORKER then
        let st2 := { st with positions := st.positions ++ [p] }
        if received + 1 < expected then
          { st2 with mode := TrxtMode.collecting expected (received + 1) }
        else trxtFinishBatch expected st2
      else st
    | _ => st

/-- recieve_statustrxt run over a finite prefix of the frame stream. -/
def runTrxt (frames : List MavFrame) (saves : List Bool) : TrxtState :=
  frames.foldl trxtStep
    { mode := TrxtMode.waiting, positions := [], saves := saves, emitted := [] }


/-! ## Theorems -/

/-! ### Clustering lemmas -/

lemma planarDist2_comm (p q : LocalPosition) : planarDist2 p q = planarDist2 q p := by
  unfold planarDist2; ring

lemma planarDist2_nonneg (p q : LocalPosition) : 0 ≤ planarDist2 p q :=
  add_nonneg (sq_nonneg _) (sq_nonneg _)

lemma innerScan_zero (i : Nat) (seed : LocalPosition) :
    ∀ (l : List (Nat × LocalPosition)) (merged : List Nat),
      innerScan 0 i seed l merged = ([], merged) := by
  intro l
  induction l with
  | nil => intro merged; rfl
  | cons x rest ih =>
    intro merged
    obtain ⟨j, hj⟩ := x
    rw [innerScan, if_neg, ih]
    rintro ⟨-, -, hlt⟩
    have h0 : ((0 : ℚ)) ^ 2 = 0 := by norm_num
    rw [h0] at hlt
    exact absurd hlt (not_lt.2 (planarDist2_nonneg seed hj))

lemma outerLoop_zero (enumerated : List (Nat × LocalPosition)) :
    ∀ l : List (Nat × LocalPosition),
      outerLoop 0 enumerated l [] = l.map (fun x => [x.2]) := by
  intro l
  induction l with
  | nil => rfl
  | cons x rest ih =>
    obtain ⟨i, hi⟩ := x
    rw [outerLoop, if_neg (List.not_mem_nil i), innerScan_zero]
    simp [ih]

lemma innerScan_mem_dist (threshold : ℚ) (i : Nat) (seed : LocalPosition) :
    ∀ (l : List (Nat × LocalPosition)) (merged : List Nat),
      ∀ p ∈ (innerScan threshold i seed l merged).1,
        planarDist2 seed p < threshold ^ 2 := by
  intro l
  induction l with
  | nil => intro merged p hp; simp [innerScan] at hp
  | cons x rest ih =>
    intro merged p hp
    obtain ⟨j, hj⟩ := x
    rw [innerScan] at hp
    by_cases hc : i ≠ j ∧ j ∉ merged ∧ planarDist2 seed hj < threshold ^ 2
    · rw [if_pos hc] at hp
      rcases List.mem_cons.1 hp with h | h
      · exact h ▸ hc.2.2
      · exact ih (merged ++ [j]) p h
    · rw [if_neg hc] at hp
      exact ih merged p hp

lemma outerLoop_group_shape (threshold : ℚ) (enumerated : List (Nat × LocalPosition)) :
    ∀ (l : List (Nat × LocalPosition)) (merged : List Nat),
      ∀ g ∈ outerLoop threshold enumerated l merged,
        ∃ seed rest, g = seed :: rest ∧
          ∀ p ∈ rest, planarDist2 seed p < threshold ^ 2 := by
  intro l
  induction l with
  | nil => intro merged g hg; simp [outerLoop] at hg
  | cons x rest ih =>
    intro merged g hg
    obtain ⟨i, hi⟩ := x
    rw [outerLoop] at hg
    by_cases hm : i ∈ merged
    · rw [if_pos hm] at hg
      exact ih merged g hg
    · rw [if_neg hm] at hg
      rcases List.mem_cons.1 hg with h | h
      · exact ⟨hi, (innerScan threshold i hi enumerated merged).1, h,
          fun p hp => innerScan_mem_dist threshold i hi enumerated merged p hp⟩
      · exact ih _ g h

/-! ### Claim theorems for the clustering engine -/

/-- Claim C2, counterexample: with the three colinear points A = (0,0),
B = (3,0), C = (6,0) and threshold 5, clustering in input order A, B, C does
NOT yield one cluster containing all three: C is 6 m from the seed A, so the
result is the two clusters (A, B) and (C). -/
theorem c2_seed_anchor_counterexample :
    clusterGroups [⟨0, 0, 0⟩, ⟨3, 0, 0⟩, ⟨6, 0, 0⟩] 5
        = [[⟨0, 0, 0⟩, ⟨3, 0, 0⟩], [⟨6, 0, 0⟩]] ∧
    (clusterGroups [⟨0, 0, 0⟩, ⟨3, 0, 0⟩, ⟨6, 0, 0⟩] 5).length ≠ 1 := by
  decide

/-- Claim C2 as amended: for the colinear points A = (0,0), B = (3,0),
C = (6,0) at 3 m spacing with threshold 5 m, input order A, B, C yields the
two clusters (A, B) and (C), while order B, A, C yields the single cluster
(B, A, C); the grouping is seed-anchored, as witnessed by members A and C of
that single cluster lying farther apart than the threshold. -/
theorem c2_seed_anchoring :
    clusterGroups [⟨0, 0, 0⟩, ⟨3, 0, 0⟩, ⟨6, 0, 0⟩] 5
        = [[⟨0, 0, 0⟩, ⟨3, 0, 0⟩], [⟨6, 0, 0⟩]] ∧
    clusterGroups [⟨3, 0, 0⟩, ⟨0, 0, 0⟩, ⟨6, 0, 0⟩] 5
        = [[⟨3, 0, 0⟩, ⟨0, 0, 0⟩, ⟨6, 0, 0⟩]] ∧
    planarDist2 ⟨0, 0, 0⟩ ⟨6, 0, 0⟩ > 5 ^ 2 := by
  decide

/-- Claim C3, counterexample: the clustering comparison is
threshold squared against squared distance, so for the negative threshold -3
the points (0,0) and (1,0) are merged into one two-member cluster, not
into singletons. -/
theorem c3_threshold_counterexample :
    (-3 : ℚ) ≤ 0 ∧
    clusterGroups [⟨0, 0, 0⟩, ⟨1, 0, 0⟩] (-3)
        = [[⟨0, 0, 0⟩, ⟨1, 0, 0⟩]] ∧
    (clusterGroups [⟨0, 0, 0⟩, ⟨1, 0, 0⟩] (-3)).length ≠ 2 := by
  decide

/-- Claim C3 as amended: with threshold 0 the clustering step yields one
singleton cluster per point, the empty input yields empty output, and a
single point yields one singleton cluster; merge_kml.main rejects every
threshold that is not positive before clustering runs (a negative threshold,
were it to reach the clustering step, would act like its absolute value,
which is what the counterexample shows). -/
theorem c3_threshold_edge_cases :
    (∀ ps : List LocalPosition, clusterGroups ps 0 = ps.map (fun p => [p])) ∧
    (∀ t : ℚ, clusterGroups [] t = []) ∧
    (∀ (p : LocalPosition) (t : ℚ), clusterGroups [p] t = [[p]]) ∧
    (∀ (t : ℚ) (places : List Placemark), t ≤ 0 →
      mergeMain t places = MainOutcome.errorReturn) := by
  refine ⟨?_, ?_, ?_, ?_⟩
  · intro ps
    rw [clusterGroups, outerLoop_zero]
    rw [show (fun x : Nat × LocalPosition => [x.2]) = (fun p : LocalPosition => [p]) ∘ Prod.snd
        from rfl]
    rw [← List.map_map, List.enum_map_snd]
  · intro t; rfl
  · intro p t
    simp [clusterGroups, outerLoop, innerScan, List.enum]
  · intro t places h
    rw [mergeMain, if_pos (not_lt.2 h)]

/-- Witness for c3_threshold_edge_cases at threshold -1 and the empty
placemark list. -/
theorem c3_threshold_edge_cases_witness :
    (-1 : ℚ) ≤ 0 ∧ mergeMain (-1) [] = MainOutcome.errorReturn :=
  ⟨by decide, c3_threshold_edge_cases.2.2.2 (-1) [] (by decide)⟩

/-- Claim C4: for a positive threshold, every cluster produced by the
clustering step either has exactly one member, or each of its members is at
planar distance strictly below the threshold from at least one other member
of the same cluster (distances are compared through their squares, which for
a positive threshold is equivalent); the partner is always the seed. -/
theorem c4_cluster_member_invariant (hotspots : List LocalPosition) (threshold : ℚ)
    (hpos : 0 < threshold) :
    ∀ g ∈ clusterGroups hotspots threshold,
      g.length = 1 ∨
      ∀ i, (hi : i < g.length) → ∃ j, ∃ hj : j < g.length,
        i ≠ j ∧ planarDist2 (g.get ⟨i, hi⟩) (g.get ⟨j, hj⟩) < threshold ^ 2 := by
  intro g hg
  obtain ⟨seed, tail, hshape, htail⟩ :=
    outerLoop_group_shape threshold hotspots.enum hotspots.enum [] g hg
  subst hshape
  cases tail with
  | nil => exact Or.inl rfl
  | cons q qs =>
    refine Or.inr ?_
    intro i hi
    cases i with
    | zero =>
      refine ⟨1, ?_, ?_, ?_⟩
      · simp
      · decide
      · have : planarDist2 seed q < threshold ^ 2 := htail q (List.mem_cons_self q qs)
        simpa using this
    | succ k =>
      have hk : k < (q :: qs).length := by
        simpa using hi
      refine ⟨0, ?_, ?_, ?_⟩
      · simp
      · simp
      · have hmem : (q :: qs).get ⟨k, hk⟩ ∈ q :: qs := List.get_mem _ _ _
        have hdist : planarDist2 seed ((q :: qs).get ⟨k, hk⟩) < threshold ^ 2 :=
          htail _ hmem
        rw [planarDist2_comm] at hdist
        simpa using hdist

/-- Witness for c4_cluster_member_invariant on the three colinear points at
threshold 5, instantiated at the cluster (A, B). -/
theorem c4_cluster_member_invariant_witness :
    (0 : ℚ) < 5 ∧
    [⟨0, 0, 0⟩, ⟨3, 0, 0⟩] ∈ clusterGroups [⟨0, 0, 0⟩, ⟨3, 0, 0⟩, ⟨6, 0, 0⟩] 5 ∧
    (([⟨0, 0, 0⟩, ⟨3, 0, 0⟩] : List LocalPosition).length = 1 ∨
      ∀ i, (hi : i < ([⟨0, 0, 0⟩, ⟨3, 0, 0⟩] : List LocalPosition).length) →
        ∃ j, ∃ hj : j < ([⟨0, 0, 0⟩, ⟨3, 0, 0⟩] : List LocalPosition).length,
          i ≠ j ∧
            planarDist2 (([⟨0, 0, 0⟩, ⟨3, 0, 0⟩] : List LocalPosition).get ⟨i, hi⟩)
              (([⟨0, 0, 0⟩, ⟨3, 0, 0⟩] : List LocalPosition).get ⟨j, hj⟩) < 5 ^ 2) :=
  ⟨by decide, by decide,
    c4_cluster_member_invariant [⟨0, 0, 0⟩, ⟨3, 0, 0⟩, ⟨6, 0, 0⟩] 5 (by decide)
      [⟨0, 0, 0⟩, ⟨3, 0, 0⟩] (by decide)⟩

/-! ### Claim theorems for the output assembler and KML handling -/

/-- Claim C5 (code bug demonstration): the final document of merge_kml.main
always begins with a Source placemark followed by the cluster centroids
labeled Hotspot 1, Hotspot 2, ... in cluster-formation order; when no
placemark is Source-tagged the code does not omit the source entry but
indexes source[0] on the empty source list, an uncaught IndexError.  The
last two conjuncts evaluate main on a source-tagged input (ordering and
labels as claimed) and on the failing hotspot-only input. -/
theorem c5_output_ordering :
    (∀ (a b c : ℚ) (gcs : List GeodeticPosition),
      buildOutput (some (a, b, c)) gcs
        = MainOutcome.ok
            (("Source", { latitude := a, longitude := b, altitude := c }) ::
              gcs.enum.map (fun x => (hotspotName x.1, x.2)))) ∧
    (∀ gcs : List GeodeticPosition, buildOutput none gcs = MainOutcome.uncaught) ∧
    mergeMain 5
      [ { name := some "Source", hasPoint := true, hasCoordinates := true,
          coordinatesText := "10,20,0" },
        { name := some "Hotspot 1", hasPoint := true, hasCoordinates := true,
          coordinatesText := "11,20,0" },
        { name := some "Hotspot 2", hasPoint := true, hasCoordinates := true,
          coordinatesText := "30,20,0" } ]
      = MainOutcome.ok
          [("Source", { latitude := 10, longitude := 20, altitude := 0 }),
           ("Hotspot 1", { latitude := 11, longitude := 20, altitude := 0 }),
           ("Hotspot 2", { latitude := 30, longitude := 20, altitude := 0 })] ∧
    mergeMain 5
      [ { name := some "Hotspot 1", hasPoint := true, hasCoordinates := true,
          coordinatesText := "10,20,0" } ]
      = MainOutcome.uncaught :=
  ⟨fun a b c gcs => rfl, fun gcs => rfl, by decide, by decide⟩

/-- Claim C8: the source category is reduced by a running average of
latitude, longitude and altitude, and merge_kml.main on exactly the two
source-tagged points (10, 20, 5) and (10, 20.1, 7) outputs exactly
(10, 20.05, 6) as the Source position. -/
theorem c8_source_running_average :
    (∀ a b c lat lng alt : ℚ,
      updateSource (some (a, b, c)) lat lng alt
        = ((a + lat) / 2, (b + lng) / 2, (c + alt) / 2)) ∧
    (∀ lat lng alt : ℚ, updateSource none lat lng alt = (lat, lng, alt)) ∧
    mergeMain 1
      [ { name := some "Source", hasPoint := true, hasCoordinates := true,
          coordinatesText := "10,20,5" },
        { name := some "Source", hasPoint := true, hasCoordinates := true,
          coordinatesText := "10,20.1,7" } ]
      = MainOutcome.ok
          [("Source", { latitude := 10, longitude := 20.05, altitude := 6 })] :=
  ⟨fun a b c lat lng alt => rfl, fun lat lng alt => rfl, by decide⟩

/-- Claim C10: the coordinate-emptiness check of validate_placemark compares
the int len(text) with the empty string, which is False for every input
text, so a placemark with empty coordinates text passes validation and
merge_kml.main then dies with an uncaught ValueError from float() instead of
logging and returning -1. -/
theorem c10_validation_totality :
    (∀ s : String, pyEq (PyVal.intVal s.length) (PyVal.strVal "") = false) ∧
    validate_placemark
      { name := some "Hotspot 1", hasPoint := true, hasCoordinates := true,
        coordinatesText := "" } = true ∧
    pyFloat "" = none ∧
    mergeMain 5
      [ { name := some "Hotspot 1", hasPoint := true, hasCoordinates := true,
          coordinatesText := "" } ]
      = MainOutcome.uncaught :=
  ⟨fun s => rfl, by decide, by decide, by decide⟩

/-! ### Split and parse lemmas for the coordinate round trip -/

lemma stringMk_data : ∀ s : String, String.mk s.data = s := by
  intro s; cases s; rfl

lemma splitOnChar_no_sep (sep : Char) :
    ∀ l : List Char, sep ∉ l → splitOnChar sep l = [l] := by
  intro l
  induction l with
  | nil => intro _; rfl
  | cons c cs ih =>
    intro h
    have hc : c ≠ sep := fun e => h (e ▸ List.mem_cons_self c cs)
    have hcs : sep ∉ cs := fun e => h (List.mem_cons_of_mem c e)
    rw [splitOnChar, if_neg hc, ih hcs]

lemma splitOnChar_append (sep : Char) :
    ∀ a b : List Char, sep ∉ a →
      splitOnChar sep (a ++ sep :: b) = a :: splitOnChar sep b := by
  intro a
  induction a with
  | nil =>
    intro b _
    show splitOnChar sep (sep :: b) = [] :: splitOnChar sep b
    rw [splitOnChar, if_pos rfl]
  | cons c cs ih =>
    intro b h
    have hc : c ≠ sep := fun e => h (e ▸ List.mem_cons_self c cs)
    have hcs : sep ∉ cs := fun e => h (List.mem_cons_of_mem c e)
    show splitOnChar sep (c :: (cs ++ sep :: b)) = (c :: cs) :: splitOnChar sep b
    rw [splitOnChar, if_neg hc, ih b hcs]

lemma pySplitComma_three (f0 f1 f2 : String)
    (h0 : ',' ∉ f0.data) (h1 : ',' ∉ f1.data) (h2 : ',' ∉ f2.data) :
    pySplitComma (f0 ++ "," ++ f1 ++ "," ++ f2) = [f0, f1, f2] := by
  have hdata : (f0 ++ "," ++ f1 ++ "," ++ f2).data
      = f0.data ++ ',' :: (f1.data ++ ',' :: f2.data) := by
    simp [String.data_append]
  rw [pySplitComma, hdata, splitOnChar_append ',' _ _ h0,
    splitOnChar_append ',' _ _ h1, splitOnChar_no_sep ',' _ h2]
  simp [stringMk_data]

/-- Claim C9: a placemark written by append_points.append_hotspot carries the
coordinate text longitude,latitude,0; merge_kml.main's parser assigns the
first comma-separated field to latitude and the second to longitude, so it
reads such a placemark with latitude and longitude swapped; merge_kml's own
output writes latitude first, which its own parser reads back unchanged. -/
theorem c9_coordinate_field_order (latT lngT altT : String) (latV lngV altV : ℚ)
    (hlat : ',' ∉ latT.data) (hlng : ',' ∉ lngT.data) (halt : ',' ∉ altT.data)
    (plat : pyFloat latT = some latV) (plng : pyFloat lngT = some lngV)
    (palt : pyFloat altT = some altV) :
    parseCoord (appendHotspotCoordText latT lngT) = some (lngV, latV, 0) ∧
    parseCoord (mergeKmlCoordText latT lngT altT) = some (latV, lngV, altV) := by
  constructor
  · have hsplit : pySplitComma (lngT ++ "," ++ latT ++ "," ++ "0")
        = [lngT, latT, "0"] :=
      pySplitComma_three lngT latT "0" hlng hlat (by decide)
    rw [parseCoord, appendHotspotCoordText, hsplit]
    simp [plat, plng, show pyFloat "0" = some 0 from rfl]
  · have hsplit : pySplitComma (latT ++ "," ++ lngT ++ "," ++ altT)
        = [latT, lngT, altT] :=
      pySplitComma_three latT lngT altT hlat hlng halt
    rw [parseCoord, mergeKmlCoordText, hsplit]
    simp [plat, plng, palt]

/-- Witness for c9_coordinate_field_order on the concrete fields 15, 20, 7:
the parser reads an append_hotspot placemark with latitude 20 (the written
longitude) and longitude 15 (the written latitude). -/
theorem c9_coordinate_field_order_witness :
    parseCoord (appendHotspotCoordText "15" "20") = some (20, 15, 0) ∧
    parseCoord (mergeKmlCoordText "15" "20" "7") = some (15, 20, 7) :=
  c9_coordinate_field_order "15" "20" "7" 15 20 7 (by decide) (by decide)
    (by decide) (by decide) (by decide) (by decide)

/-! ### Receive-loop lemmas -/

lemma textStep_term (st : TextState) (f : MavFrame) (h : st.terminated ≠ none) :
    textStep st f = st := by
  unfold textStep
  rw [if_pos h]

lemma foldl_textStep_term :
    ∀ (fs : List MavFrame) (st : TextState), st.terminated ≠ none →
      fs.foldl textStep st = st := by
  intro fs
  induction fs with
  | nil => intro st _; rfl
  | cons f rest ih =>
    intro st h
    rw [List.foldl_cons, textStep_term st f h]
    exact ih st h

lemma itemStream_outerNoise (f : MavFrame) (h : ItemStream f = true) :
    OuterNoise f = true := by
  cases f <;> simp_all [ItemStream, OuterNoise]

lemma foldl_waiting_noise (pos : List (String × GeodeticPosition)) (sv : List Bool)
    (em : List (Nat × List (String × GeodeticPosition))) :
    ∀ fs : List MavFrame, (∀ f ∈ fs, OuterNoise f = true) →
      fs.foldl textStep ⟨TextMode.waiting, pos, sv, em, none⟩
        = ⟨TextMode.waiting, pos, sv, em, none⟩ := by
  intro fs
  induction fs with
  | nil => intro _; rfl
  | cons f rest ih =>
    intro h
    have hf : OuterNoise f = true := h f (List.mem_cons_self f rest)
    have hrest : ∀ g ∈ rest, OuterNoise g = true :=
      fun g hg => h g (List.mem_cons_of_mem f hg)
    have hstep : textStep ⟨TextMode.waiting, pos, sv, em, none⟩ f
        = ⟨TextMode.waiting, pos, sv, em, none⟩ := by
      cases f with
      | noMsg => rfl
      | badData => simp [OuterNoise] at hf
      | garbage => rfl
      | item w p ok => rfl
      | metadata w n =>
        cases w with
        | COMMUNICATIONS_WORKER => simp [OuterNoise] at hf
        | otherWorker id => rfl
    rw [List.foldl_cons, hstep]
    exact ih hrest

lemma namedBatch_length : ∀ (l : List GeodeticPosition) (r : Nat),
    (namedBatch r l).length = l.length := by
  intro l
  induction l with
  | nil => intro r; rfl
  | cons p ps ih => intro r; simp [namedBatch, ih]

lemma textCollect (e : Nat) :
    ∀ (post : List MavFrame) (r : Nat) (acc : List (String × GeodeticPosition))
      (sv : List Bool) (em : List (Nat × List (String × GeodeticPosition))),
      (∀ f ∈ post, ItemStream f = true) → r < e →
      e - r ≤ (validPositions post).length →
      (post.foldl textStep ⟨TextMode.collecting e r, acc, sv, em, none⟩).emitted
        = em ++ [(e, acc ++ namedBatch r ((validPositions post).take (e - r)))] := by
  intro post
  induction post with
  | nil =>
    intro r acc sv em _ hr hlen
    exfalso
    have h0 : (validPositions []).length = 0 := rfl
    omega
  | cons f rest ih =>
    intro r acc sv em hstream hr hlen
    have hf : ItemStream f = true := hstream f (List.mem_cons_self f rest)
    have hrest : ∀ g ∈ rest, ItemStream g = true :=
      fun g hg => hstream g (List.mem_cons_of_mem f hg)
    rw [List.foldl_cons]
    cases f with
    | badData => simp [ItemStream] at hf
    | metadata w n => simp [ItemStream] at hf
    | noMsg =>
      have hstep : textStep ⟨TextMode.collecting e r, acc, sv, em, none⟩ MavFrame.noMsg
          = ⟨TextMode.collecting e r, acc, sv, em, none⟩ := rfl
      rw [hstep]
      exact ih r acc sv em hrest hr hlen
    | garbage =>
      have hstep : textStep ⟨TextMode.collecting e r, acc, sv, em, none⟩ MavFrame.garbage
          = ⟨TextMode.collecting e r, acc, sv, em, none⟩ := rfl
      rw [hstep]
      exact ih r acc sv em hrest hr hlen
    | item w p ok =>
      cases w with
      | otherWorker id =>
        have hstep : textStep ⟨TextMode.collecting e r, acc, sv, em, none⟩
            (MavFrame.item (WorkerEnum.otherWorker id) p ok)
            = ⟨TextMode.collecting e r, acc, sv, em, none⟩ := rfl
        rw [hstep]
        exact ih r acc sv em hrest hr hlen
      | COMMUNICATIONS_WORKER =>
        cases ok with
        | false =>
          have hstep : textStep ⟨TextMode.collecting e r, acc, sv, em, none⟩
              (MavFrame.item WorkerEnum.COMMUNICATIONS_WORKER p false)
              = ⟨TextMode.collecting e r, acc, sv, em, none⟩ := rfl
          rw [hstep]
          exact ih r acc sv em hrest hr hlen
        | true =>
          have hvp : validPositions (MavFrame.item WorkerEnum.COMMUNICATIONS_WORKER p true :: rest)
              = p :: validPositions rest := rfl
          have hred : textStep ⟨TextMode.collecting e r, acc, sv, em, none⟩
              (MavFrame.item WorkerEnum.COMMUNICATIONS_WORKER p true)
              = if r + 1 < e then
                  (⟨TextMode.collecting e (r + 1), acc ++ [(hotspotName r, p)], sv, em, none⟩ :
                    TextState)
                else
                  textEmit e ⟨TextMode.collecting e r, acc ++ [(hotspotName r, p)], sv, em, none⟩ :=
            rfl
          by_cases hlt : r + 1 < e
          · rw [hred, if_pos hlt]
            have hlen2 : e - (r + 1) ≤ (validPositions rest).length := by
              rw [hvp] at hlen
              simp only [List.length_cons] at hlen
              omega
            rw [ih (r + 1) (acc ++ [(hotspotName r, p)]) sv em hrest hlt hlen2]
            rw [hvp]
            have he : e - r = (e - (r + 1)) + 1 := by omega
            rw [he, List.take_succ_cons]
            rw [show namedBatch r (p :: (validPositions rest).take (e - (r + 1)))
                = (hotspotName r, p) :: namedBatch (r + 1) ((validPositions rest).take (e - (r + 1)))
              from rfl]
            simp
          · have he : e - r = 1 := by omega
            rw [hred, if_neg hlt]
            have houter : ∀ g ∈ rest, OuterNoise g = true :=
              fun g hg => itemStream_outerNoise g (hrest g hg)
            rw [hvp, he, List.take_succ_cons, List.take_zero]
            rw [show namedBatch r [p] = [(hotspotName r, p)] from rfl]
            rcases sv with _ | ⟨s, tl⟩
            · have hemit : textEmit e
                  ⟨TextMode.collecting e r, acc ++ [(hotspotName r, p)], [], em, none⟩
                  = ⟨TextMode.waiting, [], [],
                      em ++ [(e, acc ++ [(hotspotName r, p)])], none⟩ := rfl
              rw [hemit, foldl_waiting_noise _ _ _ rest houter]
            · cases s with
              | true =>
                have hemit : textEmit e
                    ⟨TextMode.collecting e r, acc ++ [(hotspotName r, p)], true :: tl, em, none⟩
                    = ⟨TextMode.waiting, [], tl,
                        em ++ [(e, acc ++ [(hotspotName r, p)])], none⟩ := rfl
                rw [hemit, foldl_waiting_noise _ _ _ rest houter]
              | false =>
                have hemit : textEmit e
                    ⟨TextMode.collecting e r, acc ++ [(hotspotName r, p)], false :: tl, em, none⟩
                    = ⟨TextMode.waiting, [], tl,
                        em ++ [(e, acc ++ [(hotspotName r, p)])], some (-1)⟩ := rfl
                rw [hemit, foldl_textStep_term rest _ (by simp)]

/-- Claim C1: for a frame stream made of outer-loop noise, then exactly one
metadata frame announcing count N for the communications worker, then an
item region holding at least N valid matching item frames possibly
interleaved with no-message, undecodable or foreign-source frames (and no
further metadata or transport-corrupt frames), the session hands the KML
sink exactly one batch whose positions are the first N valid positions in
arrival order, named Hotspot 1 through Hotspot N; in particular exactly N
positions are appended. -/
theorem c1_batch_completeness (pre post : List MavFrame) (saves : List Bool) (N : Nat)
    (hpre : ∀ f ∈ pre, OuterNoise f = true)
    (hpost : ∀ f ∈ post, ItemStream f = true)
    (hN : N ≤ (validPositions post).length) :
    (runText (pre ++ MavFrame.metadata WorkerEnum.COMMUNICATIONS_WORKER N :: post)
        saves).emitted
      = [(N, namedBatch 0 ((validPositions post).take N))] ∧
    (namedBatch 0 ((validPositions post).take N)).length = N := by
  constructor
  · have hinit : textInit saves = ⟨TextMode.waiting, [], saves, [], none⟩ := rfl
    rw [runText, hinit, List.foldl_append, foldl_waiting_noise _ _ _ pre hpre,
      List.foldl_cons]
    have houter : ∀ g ∈ post, OuterNoise g = true :=
      fun g hg => itemStream_outerNoise g (hpost g hg)
    by_cases hN0 : N = 0
    · subst hN0
      have hred : textStep ⟨TextMode.waiting, [], saves, [], none⟩
          (MavFrame.metadata WorkerEnum.COMMUNICATIONS_WORKER 0)
          = textEmit 0 ⟨TextMode.waiting, [], saves, [], none⟩ := rfl
      rw [hred]
      rcases saves with _ | ⟨s, tl⟩
      · have hemit : textEmit 0 (⟨TextMode.waiting, [], [], [], none⟩ : TextState)
            = ⟨TextMode.waiting, [], [], [(0, [])], none⟩ := rfl
        rw [hemit, foldl_waiting_noise _ _ _ post houter]
        rfl
      · cases s with
        | true =>
          have hemit : textEmit 0 (⟨TextMode.waiting, [], true :: tl, [], none⟩ : TextState)
              = ⟨TextMode.waiting, [], tl, [(0, [])], none⟩ := rfl
          rw [hemit, foldl_waiting_noise _ _ _ post houter]
          rfl
        | false =>
          have hemit : textEmit 0 (⟨TextMode.waiting, [], false :: tl, [], none⟩ : TextState)
              = ⟨TextMode.waiting, [], tl, [(0, [])], some (-1)⟩ := rfl
          rw [hemit, foldl_textStep_term post _ (by simp)]
          rfl
    · have hred : textStep ⟨TextMode.waiting, [], saves, [], none⟩
          (MavFrame.metadata WorkerEnum.COMMUNICATIONS_WORKER N)
          = if N = 0 then textEmit 0 ⟨TextMode.waiting, [], saves, [], none⟩
            else ⟨TextMode.collecting N 0, [], saves, [], none⟩ := rfl
      rw [hred, if_neg hN0]
      have hpos : 0 < N := Nat.pos_of_ne_zero hN0
      have := textCollect N post 0 [] saves [] hpost hpos (by simpa using hN)
      simpa using this
  · rw [namedBatch_length, List.length_take]
    omega

/-- Witness for c1_batch_completeness: three noise frames, a metadata frame
announcing two positions, then an item region with a foreign item, chatter,
two valid items interleaved with a no-message read and a failed-create item,
and one extra valid item beyond the count. -/
theorem c1_batch_completeness_witness :
    (runText
      ([MavFrame.noMsg, MavFrame.metadata (WorkerEnum.otherWorker 3) 7, MavFrame.garbage]
        ++ MavFrame.metadata WorkerEnum.COMMUNICATIONS_WORKER 2 ::
          [MavFrame.item (WorkerEnum.otherWorker 1) ⟨5, 5, 0⟩ true,
           MavFrame.garbage,
           MavFrame.item WorkerEnum.COMMUNICATIONS_WORKER ⟨1, 1, 0⟩ true,
           MavFrame.noMsg,
           MavFrame.item WorkerEnum.COMMUNICATIONS_WORKER ⟨2, 2, 2⟩ false,
           MavFrame.item WorkerEnum.COMMUNICATIONS_WORKER ⟨2, 2, 0⟩ true,
           MavFrame.item WorkerEnum.COMMUNICATIONS_WORKER ⟨9, 9, 0⟩ true])
      [true]).emitted
    = [(2, [("Hotspot 1", ⟨1, 1, 0⟩), ("Hotspot 2", ⟨2, 2, 0⟩)])] :=
  (c1_batch_completeness
    [MavFrame.noMsg, MavFrame.metadata (WorkerEnum.otherWorker 3) 7, MavFrame.garbage]
    [MavFrame.item (WorkerEnum.otherWorker 1) ⟨5, 5, 0⟩ true,
     MavFrame.garbage,
     MavFrame.item WorkerEnum.COMMUNICATIONS_WORKER ⟨1, 1, 0⟩ true,
     MavFrame.noMsg,
     MavFrame.item WorkerEnum.COMMUNICATIONS_WORKER ⟨2, 2, 2⟩ false,
     MavFrame.item WorkerEnum.COMMUNICATIONS_WORKER ⟨2, 2, 0⟩ true,
     MavFrame.item WorkerEnum.COMMUNICATIONS_WORKER ⟨9, 9, 0⟩ true]
    [true] 2 (by decide) (by decide) (by decide)).1

/-! ### Batch-count invariant of recieve_statustext and the trxt carry-over -/

lemma textStep_inv (st : TextState) (f : MavFrame)
    (hem : ∀ b ∈ st.emitted, b.2.length = b.1)
    (hmode : ∀ e r, st.mode = TextMode.collecting e r → st.positions.length = r ∧ r < e) :
    (∀ b ∈ (textStep st f).emitted, b.2.length = b.1) ∧
    (∀ e r, (textStep st f).mode = TextMode.collecting e r →
      (textStep st f).positions.length = r ∧ r < e) := by
  obtain ⟨mode, pos, sv, em, term⟩ := st
  cases term with
  | some t =>
    rw [textStep_term _ f (by simp)]
    exact ⟨hem, hmode⟩
  | none =>
    cases mode with
    | waiting =>
      cases f with
      | noMsg => exact ⟨hem, hmode⟩
      | garbage => exact ⟨hem, hmode⟩
      | item w p ok => exact ⟨hem, hmode⟩
      | badData =>
        refine ⟨hem, ?_⟩
        intro e r h
        simp [textStep] at h
      | metadata w n =>
        cases w with
        | otherWorker id => exact ⟨hem, hmode⟩
        | COMMUNICATIONS_WORKER =>
          by_cases hn : n = 0
          · subst hn
            have hred : textStep ⟨TextMode.waiting, pos, sv, em, none⟩
                (MavFrame.metadata WorkerEnum.COMMUNICATIONS_WORKER 0)
                = textEmit 0 ⟨TextMode.waiting, [], sv, em, none⟩ := rfl
            rw [hred]
            rcases sv with _ | ⟨s, tl⟩
            · refine ⟨?_, ?_⟩
              · intro b hb
                rcases List.mem_append.1 hb with h | h
                · exact hem b h
                · simp at h; subst h; rfl
              · intro e r h
                simp [textEmit] at h
            · cases s <;>
              · refine ⟨?_, ?_⟩
                · intro b hb
                  rcases List.mem_append.1 hb with h | h
                  · exact hem b h
                  · simp at h; subst h; rfl
                · intro e r h
                  simp [textEmit] at h
          · have hred : textStep ⟨TextMode.waiting, pos, sv, em, none⟩
                (MavFrame.metadata WorkerEnum.COMMUNICATIONS_WORKER n)
                = if n = 0 then textEmit 0 ⟨TextMode.waiting, [], sv, em, none⟩
                  else ⟨TextMode.collecting n 0, [], sv, em, none⟩ := rfl
            rw [hred, if_neg hn]
            refine ⟨hem, ?_⟩
            intro e r h
            simp only [TextMode.collecting.injEq] at h
            obtain ⟨he, hr⟩ := h
            subst he; subst hr
            exact ⟨rfl, Nat.pos_of_ne_zero hn⟩
    | collecting e0 r0 =>
      obtain ⟨hlen0, hlt0⟩ := hmode e0 r0 rfl
      cases f with
      | noMsg => exact ⟨hem, hmode⟩
      | garbage => exact ⟨hem, hmode⟩
      | metadata w n => exact ⟨hem, hmode⟩
      | badData =>
        have hred : textStep ⟨TextMode.collecting e0 r0, pos, sv, em, none⟩ MavFrame.badData
            = ⟨TextMode.collecting e0 r0, pos, sv, em, some (-1)⟩ := rfl
        rw [hred]
        refine ⟨hem, ?_⟩
        intro e r h
        simp only [TextMode.collecting.injEq] at h
        obtain ⟨he, hr⟩ := h
        subst he; subst hr
        exact ⟨hlen0, hlt0⟩
      | item w p ok =>
        cases w with
        | otherWorker id => exact ⟨hem, hmode⟩
        | COMMUNICATIONS_WORKER =>
          cases ok with
          | false => exact ⟨hem, hmode⟩
          | true =>
            have hred : textStep ⟨TextMode.collecting e0 r0, pos, sv, em, none⟩
                (MavFrame.item WorkerEnum.COMMUNICATIONS_WORKER p true)
                = if r0 + 1 < e0 then
                    (⟨TextMode.collecting e0 (r0 + 1), pos ++ [(hotspotName r0, p)],
                      sv, em, none⟩ : TextState)
                  else
                    textEmit e0 ⟨TextMode.collecting e0 r0, pos ++ [(hotspotName r0, p)],
                      sv, em, none⟩ := rfl
            by_cases hlt : r0 + 1 < e0
            · rw [hred, if_pos hlt]
              refine ⟨hem, ?_⟩
              intro e r h
              simp only [TextMode.collecting.injEq] at h
              obtain ⟨he, hr⟩ := h
              subst he; subst hr
              constructor
              · simp [hlen0]
              · exact hlt
            · rw [hred, if_neg hlt]
              have hbatch : (pos ++ [(hotspotName r0, p)]).length = e0 := by
                simp [hlen0]; omega
              rcases sv with _ | ⟨s, tl⟩
              · refine ⟨?_, ?_⟩
                · intro b hb
                  rcases List.mem_append.1 hb with h | h
                  · exact hem b h
                  · simp at h; subst h; exact hbatch
                · intro e r h
                  simp [textEmit] at h
              · cases s <;>
                · refine ⟨?_, ?_⟩
                  · intro b hb
                    rcases List.mem_append.1 hb with h | h
                    · exact hem b h
                    · simp at h; subst h; exact hbatch
                  · intro e r h
                    simp [textEmit] at h

lemma foldl_textStep_inv :
    ∀ (fs : List MavFrame) (st : TextState),
      (∀ b ∈ st.emitted, b.2.length = b.1) →
      (∀ e r, st.mode = TextMode.collecting e r → st.positions.length = r ∧ r < e) →
      ∀ b ∈ (fs.foldl textStep st).emitted, b.2.length = b.1 := by
  intro fs
  induction fs with
  | nil => intro st hem _ b hb; exact hem b hb
  | cons f rest ih =>
    intro st hem hmode
    obtain ⟨hem2, hmode2⟩ := textStep_inv st f hem hmode
    rw [List.foldl_cons]
    exact ih (textStep st f) hem2 hmode2

/-- Claim C6, counterexample (recieve_statustrxt.py): a first batch of
declared count 1 whose KML save fails leaves its position in the
module-level list, so the second batch of declared count 1 hands the sink
two positions — the count at output time differs from the declared count and
the position carried over. -/
theorem c6_reset_counterexample :
    (runTrxt
      [MavFrame.metadata WorkerEnum.COMMUNICATIONS_WORKER 1,
       MavFrame.item WorkerEnum.COMMUNICATIONS_WORKER ⟨1, 1, 0⟩ true,
       MavFrame.metadata WorkerEnum.COMMUNICATIONS_WORKER 1,
       MavFrame.item WorkerEnum.COMMUNICATIONS_WORKER ⟨2, 2, 0⟩ true]
      [false, true]).emitted
      = [(1, [⟨1, 1, 0⟩]), (1, [⟨1, 1, 0⟩, ⟨2, 2, 0⟩])] ∧
    ¬ (∀ b ∈ (runTrxt
        [MavFrame.metadata WorkerEnum.COMMUNICATIONS_WORKER 1,
         MavFrame.item WorkerEnum.COMMUNICATIONS_WORKER ⟨1, 1, 0⟩ true,
         MavFrame.metadata WorkerEnum.COMMUNICATIONS_WORKER 1,
         MavFrame.item WorkerEnum.COMMUNICATIONS_WORKER ⟨2, 2, 0⟩ true]
        [false, true]).emitted, b.2.length = b.1) := by
  decide

/-- Claim C6 as amended: in recieve_statustext.py every batch handed to the
KML sink holds exactly as many positions as its metadata frame declared (the
positions list is rebuilt from empty each batch), while in
recieve_statustrxt.py the positions list is cleared only by a successful
save — after a failed save it is kept unchanged and carries into the next
batch. -/
theorem c6_session_reset :
    (∀ (frames : List MavFrame) (saves : List Bool),
      ∀ b ∈ (runText frames saves).emitted, b.2.length = b.1) ∧
    (∀ (n : Nat) (st : TrxtState) (rest : List Bool),
      st.saves = true :: rest → (trxtFinishBatch n st).positions = []) ∧
    (∀ (n : Nat) (st : TrxtState) (rest : List Bool),
      st.saves = false :: rest → (trxtFinishBatch n st).positions = st.positions) := by
  refine ⟨?_, ?_, ?_⟩
  · intro frames saves b hb
    refine foldl_textStep_inv frames (textInit saves) ?_ ?_ b hb
    · intro b hb; simp [textInit] at hb
    · intro e r h; simp [textInit] at h
  · intro n st rest h
    obtain ⟨mode, pos, sv, em⟩ := st
    simp at h
    subst h
    rfl
  · intro n st rest h
    obtain ⟨mode, pos, sv, em⟩ := st
    simp at h
    subst h
    rfl

/-- Witness for c6_session_reset: a two-item batch of recieve_statustext
holds exactly two positions, and a concrete trxt state with a failing save
keeps its one position. -/
theorem c6_session_reset_witness :
    ((2, [("Hotspot 1", (⟨1, 1, 0⟩ : GeodeticPosition)),
          ("Hotspot 2", (⟨2, 2, 0⟩ : GeodeticPosition))]) ∈
      (runText
        [MavFrame.metadata WorkerEnum.COMMUNICATIONS_WORKER 2,
         MavFrame.item WorkerEnum.COMMUNICATIONS_WORKER ⟨1, 1, 0⟩ true,
         MavFrame.item WorkerEnum.COMMUNICATIONS_WORKER ⟨2, 2, 0⟩ true]
        [true]).emitted) ∧
    ([("Hotspot 1", (⟨1, 1, 0⟩ : GeodeticPosition)),
      ("Hotspot 2", (⟨2, 2, 0⟩ : GeodeticPosition))].length = 2) ∧
    (trxtFinishBatch 1
      (⟨TrxtMode.waiting, [⟨1, 1, 0⟩], [false], []⟩ : TrxtState)).positions
      = [(⟨1, 1, 0⟩ : GeodeticPosition)] :=
  ⟨by decide,
   c6_session_reset.1
     [MavFrame.metadata WorkerEnum.COMMUNICATIONS_WORKER 2,
      MavFrame.item WorkerEnum.COMMUNICATIONS_WORKER ⟨1, 1, 0⟩ true,
      MavFrame.item WorkerEnum.COMMUNICATIONS_WORKER ⟨2, 2, 0⟩ true]
     [true]
     (2, [("Hotspot 1", ⟨1, 1, 0⟩), ("Hotspot 2", ⟨2, 2, 0⟩)]) (by decide),
   c6_session_reset.2.2 1 ⟨TrxtMode.waiting, [⟨1, 1, 0⟩], [false], []⟩ [] rfl⟩

/-! ### Error fatality -/

/-- Claim C7, counterexample (recieve_statustext.py): a BAD_DATA transport
frame makes main return -1 immediately, and a failed KML save after a
completed batch also makes main return -1 — a following metadata frame is
never processed, so the next batch does not begin; recieve_statustrxt.py,
by contrast, continues past a failed save. -/
theorem c7_fatality_counterexample :
    (runText [MavFrame.badData] []).terminated = some (-1) ∧
    (runText
      [MavFrame.metadata WorkerEnum.COMMUNICATIONS_WORKER 0,
       MavFrame.metadata WorkerEnum.COMMUNICATIONS_WORKER 0]
      [false, true]).emitted = [(0, [])] ∧
    (runText
      [MavFrame.metadata WorkerEnum.COMMUNICATIONS_WORKER 0,
       MavFrame.metadata WorkerEnum.COMMUNICATIONS_WORKER 0]
      [false, true]).terminated = some (-1) ∧
    (runTrxt
      [MavFrame.metadata WorkerEnum.COMMUNICATIONS_WORKER 0,
       MavFrame.metadata WorkerEnum.COMMUNICATIONS_WORKER 0]
      [false, true]).emitted = [(0, []), (0, [])] := by
  decide

/-- Claim C7 as amended: in recieve_statustext.py the no-message and
undecodable reads are non-fatal, but a BAD_DATA frame sets the -1 return
value; in recieve_statustrxt.py BAD_DATA and no-message frames are skipped
with no effect at all, and a failed save leaves the loop in its waiting
state, ready for the next batch. -/
theorem c7_error_fatality :
    (∀ st : TextState, textStep st MavFrame.noMsg = st) ∧
    (∀ st : TextState, textStep st MavFrame.garbage = st) ∧
    (∀ st : TextState, st.terminated = none →
      (textStep st MavFrame.badData).terminated = some (-1)) ∧
    (∀ st : TrxtState, trxtStep st MavFrame.badData = st) ∧
    (∀ st : TrxtState, trxtStep st MavFrame.noMsg = st) ∧
    (∀ (n : Nat) (st : TrxtState) (rest : List Bool), st.saves = false :: rest →
      (trxtFinishBatch n st).mode = TrxtMode.waiting) := by
  refine ⟨?_, ?_, ?_, ?_, ?_, ?_⟩
  · intro st
    obtain ⟨mode, pos, sv, em, term⟩ := st
    cases term <;> cases mode <;> rfl
  · intro st
    obtain ⟨mode, pos, sv, em, term⟩ := st
    cases term <;> cases mode <;> rfl
  · intro st h
    obtain ⟨mode, pos, sv, em, term⟩ := st
    simp at h
    subst h
    cases mode <;> rfl
  · intro st
    obtain ⟨mode, pos, sv, em⟩ := st
    cases mode <;> rfl
  · intro st
    obtain ⟨mode, pos, sv, em⟩ := st
    cases mode <;> rfl
  · intro n st rest h
    obtain ⟨mode, pos, sv, em⟩ := st
    simp at h
    subst h
    rfl

/-- Witness for c7_error_fatality: from the fresh state, one BAD_DATA frame
terminates recieve_statustext.main with -1. -/
theorem c7_error_fatality_witness :
    (textInit []).terminated = none ∧
    (textStep (textInit []) MavFrame.badData).terminated = some (-1) :=
  ⟨rfl, c7_error_fatality.2.2.1 (textInit []) rfl⟩
